import Mathlib

/-!
# rover_ctrl / nav_node.cpp

A shallow embedding of the navigation node of the rover: the serial frame
codec (`send_cmd1`, `send_cmd2`, `checksum`, `read_from_mc`), the safety
command sequences (`disengage_all`, `engage`, `stop_procedure`), the command
callback, and one iteration of the control loop of `main` (command watchdog,
telemetry watchdog, wheel speed synchronisation, command emission).

Conventions.
* A byte is a natural number below 256; a `float` that is only moved around
  by the codec is represented by its 32-bit pattern (a natural number below
  2^32), the two unions being laid out little-endian.
* The arithmetic of the wheel speed synchronisation is carried out in exact
  rational arithmetic; the value returned by the library call
  `tan( beta*0.5 )` is an input of the computation.
* Results of calls into the operating system and the middleware
  (`ros::Time::now()`, `getNumPublishers()`, the bytes pending on a serial
  descriptor) are inputs; calls of `send_cmd1` / `send_cmd2` are recorded in
  order, with their arguments.
-/

namespace NavNode

/-! ## Frame codec -/

def FRAME_LENGTH : Nat := 10
def N_LAST_FRAMES : Nat := 2
def HDR_CJ_ANGLE_RATE : Nat := 0xCA
def HDR_SEA_ANGLE_TOR : Nat := 0x5A

/-- The four bytes that alias a `float` with bit pattern `v` in
`union raw_float` (least significant byte first). -/
def raw_float_bytes (v : Nat) : List Nat :=
  [v % 256, v / 256 % 256, v / 65536 % 256, v / 16777216 % 256]

/-- The eight bytes that alias `floats[0] = v1`, `floats[1] = v2` in
`union raw_floats`. -/
def raw_floats_bytes (v1 v2 : Nat) : List Nat :=
  raw_float_bytes v1 ++ raw_float_bytes v2

/-- The `float` (bit pattern) that aliases the four bytes `b0 .. b3`. -/
def float_of_bytes (b0 b1 b2 b3 : Nat) : Nat :=
  b0 + 256 * b1 + 65536 * b2 + 16777216 * b3

/-- Store into a byte array: `buf[idx] = b`. -/
def store (buf : Nat → Nat) (idx b : Nat) : Nat → Nat :=
  fun j => if j = idx then b else buf j

/-- The body of the `for` loop shared by `send_cmd1` and `send_cmd2`, run for
`i = 0 .. n-1`: `buffer[i+1] = data.bytes[i]; buffer[last] ^= data.bytes[i];`. -/
def fill_buffer (last : Nat) (bytes : List Nat) : Nat → (Nat → Nat) → (Nat → Nat)
  | 0, buffer => buffer
  | n + 1, buffer =>
    let buffer := fill_buffer last bytes n buffer
    let buffer := store buffer (n + 1) (bytes.getD n 0)
    store buffer last (buffer last ^^^ bytes.getD n 0)

/-- The six bytes `send_cmd1` hands to `write`. -/
def send_cmd1 (cmd val : Nat) : List Nat :=
  let buffer : Nat → Nat := fun _ => 0
  let buffer := store buffer 0 cmd
  let buffer := store buffer 5 cmd
  let buffer := fill_buffer 5 (raw_float_bytes val) 4 buffer
  (List.range 6).map buffer

/-- The ten bytes `send_cmd2` hands to `write`. -/
def send_cmd2 (cmd val1 val2 : Nat) : List Nat :=
  let buffer : Nat → Nat := fun _ => 0
  let buffer := store buffer 0 cmd
  let buffer := store buffer 9 cmd
  let buffer := fill_buffer 9 (raw_floats_bytes val1 val2) 8 buffer
  (List.range 10).map buffer

/-- XOR of all the bytes of a frame. -/
def xor_all (frame : List Nat) : Nat :=
  frame.foldl (fun cs b => cs ^^^ b) 0

/-- Telemetry globals of the node (`float`s, as bit patterns). -/
structure Joints where
  cj_angle : Nat
  cj_rate : Nat
  sea_angle : Nat
  sea_torque : Nat
deriving DecidableEq, Repr

/-- The system call `read( fd, buf, count )` on a blocking descriptor holding
the queued bytes `pending`, as Linux serves it: a `count` that is negative
once converted to `ssize_t` is refused (the call returns -1 and consumes
nothing); a positive `count` delivers the first `count` queued bytes, fewer
if fewer are queued, and does not return while none is queued (`none`).
The result is the returned value, the bytes delivered and the bytes left. -/
def sys_read (count : Int) (pending : List Nat) : Option (Int × List Nat × List Nat) :=
  if count < 0 then some (-1, [], pending)
  else if count = 0 then some (0, [], pending)
  else if pending = [] then none
  else some (((pending.take count.toNat).length : Nat), pending.take count.toNat,
    pending.drop count.toNat)

/-- The backlog loop of `read_from_mc`:
`while ( available - FRAME_LENGTH*N_LAST_FRAMES ) { rd = read( fd, discard_buf,
std::min( 1024, available - FRAME_LENGTH*N_LAST_FRAMES ) ); available -= rd; }`.
Returns the final `available` and the bytes left on the descriptor. -/
def discard_loop (available : Int) (pending : List Nat) : Option (Int × List Nat) :=
  if available - ((FRAME_LENGTH * N_LAST_FRAMES : Nat) : Int) = 0 then some (available, pending)
  else
    match _hread : sys_read (min 1024 (available - ((FRAME_LENGTH * N_LAST_FRAMES : Nat) : Int)))
        pending with
    | none => none
    | some (rd, _, rest) => discard_loop (available - rd) rest
termination_by (available - 20).natAbs
decreasing_by
  have h20 : ((FRAME_LENGTH * N_LAST_FRAMES : Nat) : Int) = 20 := rfl
  simp only [h20] at *
  unfold sys_read at _hread
  by_cases h1 : min 1024 (available - 20) < 0
  · rw [if_pos h1] at _hread
    simp only [Option.some.injEq, Prod.mk.injEq] at _hread
    omega
  · have h2 : ¬ min 1024 (available - 20) = 0 := by omega
    rw [if_neg h1, if_neg h2] at _hread
    by_cases h3 : pending = []
    · rw [if_pos h3] at _hread
      exact absurd _hread (by simp)
    · rw [if_neg h3] at _hread
      simp only [Option.some.injEq, Prod.mk.injEq, List.length_take] at _hread
      have hlen : 0 < pending.length := List.length_pos.mpr h3
      omega

/-- The function `checksum`: XOR of the ten bytes of the circular window that
starts at `buf_pos`. -/
def checksum (buffer : Nat → Nat) (buf_pos : Nat) : Nat :=
  (List.range FRAME_LENGTH).foldl
    (fun cs i => cs ^^^ buffer ((buf_pos + i) % FRAME_LENGTH)) 0

/-- What a call of `read_from_mc` leaves behind: the returned value, the
telemetry globals, the bytes still queued on the descriptor and the final
value of `buf_pos` (the number of single-byte advances of the window). -/
structure McResult where
  ret : Int
  joints : Joints
  pending : List Nat
  buf_pos : Nat
deriving DecidableEq, Repr

/-- The parsing loop of `read_from_mc`:
`while ( ioctl( fd, FIONREAD, &available ) != -1 && available >= 1 )`, one
iteration per queued byte. The union `data` occupies eight bytes (its member
`floats[2]`); the copy loop writes its bytes 0 to 7 through the member
`bytes`, and `floats[0]`, `floats[1]` alias bytes 0..3 and 4..7. -/
def window_loop : List Nat → (Nat → Nat) → Nat → Joints → McResult
  | [], _, buf_pos, joints => ⟨-1, joints, [], buf_pos⟩
  | b :: rest, rd_buf, buf_pos, joints =>
    let rd_buf := store rd_buf ((buf_pos + FRAME_LENGTH - 1) % FRAME_LENGTH) b
    let data : Nat → Nat := fun i => rd_buf ((buf_pos + 1 + i) % FRAME_LENGTH)
    let floats0 := float_of_bytes (data 0) (data 1) (data 2) (data 3)
    let floats1 := float_of_bytes (data 4) (data 5) (data 6) (data 7)
    if rd_buf (buf_pos % FRAME_LENGTH) = HDR_CJ_ANGLE_RATE then
      if checksum rd_buf buf_pos = 0 then
        ⟨1, { joints with cj_angle := floats0, cj_rate := floats1 }, rest, buf_pos⟩
      else window_loop rest rd_buf (buf_pos + 1) joints
    else if rd_buf (buf_pos % FRAME_LENGTH) = HDR_SEA_ANGLE_TOR then
      if checksum rd_buf buf_pos = 0 then
        ⟨2, { joints with sea_angle := floats0, sea_torque := floats1 }, rest, buf_pos⟩
      else window_loop rest rd_buf (buf_pos + 1) joints
    else window_loop rest rd_buf (buf_pos + 1) joints

/-- The function `read_from_mc` on a descriptor whose queue holds `pending`
(`ioctl( fd, FIONREAD, .. )` succeeds and reports its length); `stack` is the
content of the uninitialised `rd_buf`. -/
def read_from_mc (pending : List Nat) (stack : Nat → Nat) (joints : Joints) :
    Option McResult :=
  let available : Int := pending.length
  if available < FRAME_LENGTH then some ⟨0, joints, pending, 0⟩
  else
    match discard_loop available pending with
    | none => none
    | some (_, pending) =>
      match sys_read (FRAME_LENGTH - 1 : Nat) pending with
      | none => none
      | some (_, got, pending) =>
        let rd_buf : Nat → Nat := fun i => if i < got.length then got.getD i 0 else stack i
        some (window_loop pending rd_buf 0 joints)

/-! ### Vocabulary of the resynchronisation property -/

/-- A ten-byte window is accepted when it starts with a recognised header and
the XOR of its bytes is zero. -/
def accepted (w : List Nat) : Prop :=
  (w.headD 0 = HDR_CJ_ANGLE_RATE ∨ w.headD 0 = HDR_SEA_ANGLE_TOR) ∧ xor_all w = 0

instance (w : List Nat) : Decidable (accepted w) := by
  unfold accepted
  infer_instance

/-- The ten-byte window of a stream that starts at offset `j`. -/
def window (stream : List Nat) (j : Nat) : List Nat :=
  (stream.drop j).take FRAME_LENGTH

/-- Kind of an accepted frame: 1 for header 0xCA, 2 for header 0x5A. -/
def frame_kind (frame : List Nat) : Int :=
  if frame.headD 0 = HDR_CJ_ANGLE_RATE then 1 else 2

/-- The telemetry globals once the two payload values of an accepted frame
(bytes 1..4 and bytes 5..8) have been stored. -/
def store_frame (frame : List Nat) (joints : Joints) : Joints :=
  let v0 := float_of_bytes (frame.getD 1 0) (frame.getD 2 0) (frame.getD 3 0) (frame.getD 4 0)
  let v1 := float_of_bytes (frame.getD 5 0) (frame.getD 6 0) (frame.getD 7 0) (frame.getD 8 0)
  if frame.headD 0 = HDR_CJ_ANGLE_RATE then { joints with cj_angle := v0, cj_rate := v1 }
  else { joints with sea_angle := v0, sea_torque := v1 }

/-- Sliding-window decoder as the specification words it (section 4.1, steps
2 to 6), on the list of bytes from the start of the current window onwards:
an accepted window yields its frame, any other window is advanced by one
byte, and running out of bytes reports -1. `advances` counts the single-byte
advances made so far. -/
def resync : List Nat → Nat → Joints → McResult
  | [], advances, joints => ⟨-1, joints, [], advances⟩
  | b :: rest, advances, joints =>
    if (b :: rest).length < FRAME_LENGTH then ⟨-1, joints, [], advances⟩
    else if accepted ((b :: rest).take FRAME_LENGTH) then
      ⟨frame_kind ((b :: rest).take FRAME_LENGTH),
        store_frame ((b :: rest).take FRAME_LENGTH) joints,
        (b :: rest).drop FRAME_LENGTH, advances⟩
    else resync rest (advances + 1) joints

/-- The circular buffer `rd_buf`, read from `buf_pos`, holds the bytes `w`. -/
def holds (rd_buf : Nat → Nat) (buf_pos : Nat) (w : List Nat) : Prop :=
  ∀ i, i < w.length → rd_buf ((buf_pos + i) % FRAME_LENGTH) = w.getD i 0

/-! ## Wheel speed synchronisation (lines 598 to 636 of `main`) -/

def DEG_TO_RAD : ℚ := 17453292519943295 / 1000000000000000000
def WBASE : ℚ := 580
def WTRACK : ℚ := 610
def WRADIUS : ℚ := 105
def WSPEED_MAX : ℚ := 76365 / 10000

/-- The local `_wradius = 1./WRADIUS`. -/
def _wradius : ℚ := 1 / WRADIUS

/-- The local `wtrack_wbase = (float) WTRACK/WBASE`. -/
def wtrack_wbase : ℚ := WTRACK / WBASE

/-- The entry `diff[i]`; `tan_half_beta` is the value of `tan( beta*0.5 )`. -/
def diff (tan_half_beta : ℚ) (i : Nat) : ℚ :=
  (if i % 2 ≠ 0 then -1 else 1) * wtrack_wbase * tan_half_beta

/-- The entry `_1diff[i] = 1/( 1 + diff[i] )`. -/
def _1diff (tan_half_beta : ℚ) (i : Nat) : ℚ :=
  1 / (1 + diff tan_half_beta i)

/-- The entry `trans[i]`, with `dbeta_dt = cj_rate*DEG_TO_RAD`. -/
def trans (tan_half_beta cj_rate : ℚ) (i : Nat) : ℚ :=
  (if i / 2 ≠ 0 then -1 else 1)
    * (-WBASE * tan_half_beta + (if i % 2 ≠ 0 then -1 else 1) * WTRACK)
    * (cj_rate * DEG_TO_RAD) * (1 / 4)

/-- The value of `min_speed` after the first `for` loop. -/
def min_speed (speed_cmd_filtered tan_half_beta cj_rate : ℚ) (crawling_mode_cmd : Bool) : ℚ :=
  [0, 1, 2, 3].foldl
    (fun min_speed i =>
      if crawling_mode_cmd then
        if speed_cmd_filtered ≥ -(1 / 100) then
          max min_speed (-trans tan_half_beta cj_rate i * _1diff tan_half_beta i)
        else
          min min_speed (-trans tan_half_beta cj_rate i * _1diff tan_half_beta i)
      else min_speed)
    0

/-- The value of `final_speed` after the floor and the speed limit loop. -/
def final_speed (speed_cmd_filtered tan_half_beta cj_rate : ℚ) (crawling_mode_cmd : Bool) : ℚ :=
  let floor := min_speed speed_cmd_filtered tan_half_beta cj_rate crawling_mode_cmd
  let final_speed :=
    if speed_cmd_filtered ≥ -(1 / 100) then max speed_cmd_filtered floor
    else min speed_cmd_filtered floor
  [0, 1, 2, 3].foldl
    (fun final_speed i =>
      if speed_cmd_filtered ≥ -(1 / 100) then
        min final_speed
          ((WSPEED_MAX * WRADIUS - trans tan_half_beta cj_rate i) * _1diff tan_half_beta i)
      else
        max final_speed
          ((-WSPEED_MAX * WRADIUS - trans tan_half_beta cj_rate i) * _1diff tan_half_beta i))
    final_speed

/-- The entry `w_cmd[i]` computed by the last `for` loop. -/
def w_cmd (speed_cmd_filtered tan_half_beta cj_rate : ℚ) (crawling_mode_cmd : Bool)
    (i : Nat) : ℚ :=
  (final_speed speed_cmd_filtered tan_half_beta cj_rate crawling_mode_cmd
      * (1 + diff tan_half_beta i) + trans tan_half_beta cj_rate i) * _wradius

/-! ## Safety commands, command callback, control loop -/

def CMD_VEL : Nat := 0xAA
def PASSIVE_BREAK : Nat := 0xAE
def ACTIVE_BREAK : Nat := 0xAF
def CMD_ENGAGE : Nat := 0xAA
def CMD_DISENGAGE : Nat := 0x00
def CMD_MOTOR_1_POS : Nat := 0xCA
def CMD_MOTOR_1_VEL : Nat := 0xC5
def CMD_MOTOR_2_TOR : Nat := 0x35

/-- Timeouts, in nanoseconds (`ros::Duration( 1. )`). -/
def MC_TIMEOUT : Int := 1000000000
def NAV_CTRL_TIMEOUT : Int := 1000000000

/-- The three serial descriptors (globals `mc_fd`, `wmc_F_fd`, `wmc_B_fd`). -/
inductive Fd where
  | mc_fd
  | wmc_F_fd
  | wmc_B_fd
deriving DecidableEq, Repr

/-- A call of one of the two senders, with its arguments. -/
inductive Call where
  | send_cmd1 (fd : Fd) (cmd : Nat) (val : ℚ)
  | send_cmd2 (fd : Fd) (cmd : Nat) (val1 val2 : ℚ)
deriving DecidableEq, Repr

/-- The message `rover_ctrl::Rov_ctrl`; `stamp` is `header.stamp`, in
nanoseconds. -/
structure Rov_ctrl where
  engaged : Bool
  speed : ℚ
  steer : ℚ
  torque : ℚ
  rate_mode : Bool
  crawling_mode : Bool
  stamp : Int
deriving DecidableEq, Repr

/-- The state of the process: the globals, the locals of `main` that live
across iterations, the calls of the senders made so far (`sent`), and the
exit status once `exit` has been called. Times are in nanoseconds. -/
structure Node where
  engaged_cmd : Bool
  speed_cmd : ℚ
  steer_cmd : ℚ
  torque_cmd : ℚ
  rate_mode_cmd : Bool
  crawling_mode_cmd : Bool
  last_update_nav_ctrl : Int
  cj_angle : ℚ
  cj_rate : ℚ
  sea_angle : ℚ
  sea_torque : ℚ
  nav_ctrl_connected : Bool
  last_update_from_mc : Int
  sent : List Call
  exit_code : Option Int
deriving DecidableEq, Repr

/-- The calls made by `disengage_all`, in order. -/
def disengage_all_calls : List Call :=
  [Call.send_cmd2 Fd.wmc_F_fd PASSIVE_BREAK 0 0,
   Call.send_cmd2 Fd.wmc_B_fd PASSIVE_BREAK 0 0,
   Call.send_cmd2 Fd.wmc_F_fd CMD_VEL 0 0,
   Call.send_cmd2 Fd.wmc_B_fd CMD_VEL 0 0,
   Call.send_cmd1 Fd.mc_fd CMD_DISENGAGE 0]

/-- The function `disengage_all`. -/
def disengage_all (n : Node) : Node :=
  { n with sent := n.sent ++ disengage_all_calls }

/-- The function `stop_procedure`: `disengage_all(); exit( 0 );`. -/
def stop_procedure (n : Node) : Node :=
  { disengage_all n with exit_code := some 0 }

/-- The calls made by `engage`, in order. -/
def engage_calls : List Call :=
  [Call.send_cmd2 Fd.wmc_F_fd ACTIVE_BREAK 0 0,
   Call.send_cmd2 Fd.wmc_B_fd ACTIVE_BREAK 0 0,
   Call.send_cmd1 Fd.mc_fd CMD_ENGAGE 0]

/-- The function `engage`. -/
def engage (n : Node) : Node :=
  { n with sent := n.sent ++ engage_calls }

/-- The function `cmd_rcv_Callback`. -/
def cmd_rcv_Callback (n : Node) (msg : Rov_ctrl) : Node :=
  let n :=
    if msg.engaged ≠ n.engaged_cmd then
      if ¬ msg.engaged then disengage_all n else engage n
    else n
  { n with
    engaged_cmd := msg.engaged
    speed_cmd := msg.speed
    steer_cmd := msg.steer
    torque_cmd := msg.torque
    rate_mode_cmd := msg.rate_mode
    crawling_mode_cmd := msg.crawling_mode
    last_update_nav_ctrl := msg.stamp }

/-- One successful call of `read_from_mc` during the telemetry drain: the
value returned (1 or 2), the two values it stored, and the time read by the
`ros::Time::now()` that follows it. -/
structure McUpdate where
  ret : Int
  floats0 : ℚ
  floats1 : ℚ
  now : Int
deriving DecidableEq, Repr

/-- What the environment supplies to one iteration of the loop of `main`. -/
structure LoopInput where
  /-- messages handed to `cmd_rcv_Callback` by `ros::spinOnce()` -/
  msgs : List Rov_ctrl
  /-- value of `speed_cmd_filtered` after `speed_cmd_filter.update()` -/
  speed_cmd_filtered : ℚ
  /-- value of `nav_ctrl_sub.getNumPublishers()` -/
  num_publishers : Nat
  /-- value of `ros::Time::now()` in the command watchdog -/
  now_nav : Int
  /-- the successful calls of `read_from_mc` of this iteration -/
  telemetry : List McUpdate
  /-- value of `ros::Time::now()` in the telemetry watchdog -/
  now_mc : Int
  /-- value of `tan( beta*0.5 )` -/
  tan_half_beta : ℚ
deriving Repr

/-- The call `ros::spinOnce()`. -/
def spinOnce (n : Node) (msgs : List Rov_ctrl) : Node :=
  msgs.foldl cmd_rcv_Callback n

/-- The local `disconnection` of the command watchdog. -/
def disconnection (n : Node) (num_publishers : Nat) (now : Int) : Bool :=
  num_publishers == 0 || decide (now - n.last_update_nav_ctrl ≥ NAV_CTRL_TIMEOUT)

/-- The command watchdog (lines 571 to 584). -/
def nav_watchdog (n : Node) (num_publishers : Nat) (now : Int) : Node :=
  if n.nav_ctrl_connected && disconnection n num_publishers now then
    let n := if n.engaged_cmd then disengage_all n else n
    { n with nav_ctrl_connected := false }
  else if !n.nav_ctrl_connected && !disconnection n num_publishers now then
    let n := if n.engaged_cmd then engage n else n
    { n with nav_ctrl_connected := true }
  else n

/-- The telemetry drain:
`while ( read_from_mc( mc_fd ) > 0 ) { last_update_from_mc = ros::Time::now(); }`. -/
def drain_mc (n : Node) (telemetry : List McUpdate) : Node :=
  telemetry.foldl
    (fun n u =>
      let n := if u.ret = 1 then { n with cj_angle := u.floats0, cj_rate := u.floats1 }
        else { n with sea_angle := u.floats0, sea_torque := u.floats1 }
      { n with last_update_from_mc := u.now })
    n

/-- The calls made by the block "Send the commands" when it is entered. -/
def drive_calls (n : Node) (w : Nat → ℚ) : List Call :=
  [Call.send_cmd2 Fd.wmc_F_fd CMD_VEL (w 0) (w 1),
   Call.send_cmd2 Fd.wmc_B_fd CMD_VEL (w 2) (w 3),
   if n.rate_mode_cmd then Call.send_cmd1 Fd.mc_fd CMD_MOTOR_1_VEL n.steer_cmd
   else Call.send_cmd1 Fd.mc_fd CMD_MOTOR_1_POS n.steer_cmd,
   Call.send_cmd1 Fd.mc_fd CMD_MOTOR_2_TOR n.torque_cmd]

/-- The block "Send the commands" (lines 641 to 654). -/
def send_commands (n : Node) (w : Nat → ℚ) : Node :=
  if n.engaged_cmd && n.nav_ctrl_connected then { n with sent := n.sent ++ drive_calls n w }
  else n

/-- The state after `ros::spinOnce()` and the command watchdog. -/
def after_watchdog (n : Node) (inp : LoopInput) : Node :=
  nav_watchdog (spinOnce n inp.msgs) inp.num_publishers inp.now_nav

/-- The state after the telemetry drain, when the telemetry watchdog is
evaluated. -/
def after_drain (n : Node) (inp : LoopInput) : Node :=
  drain_mc (after_watchdog n inp) inp.telemetry

/-- The condition of the telemetry watchdog:
`ros::Time::now() - last_update_from_mc >= mc_timeout`. -/
def mc_timed_out (n : Node) (inp : LoopInput) : Bool :=
  decide (inp.now_mc - (after_drain n inp).last_update_from_mc ≥ MC_TIMEOUT)

/-- One iteration of the loop of `main`, up to the command emission. -/
def loop_iteration (n : Node) (inp : LoopInput) : Node :=
  let m := after_drain n inp
  if mc_timed_out n inp then stop_procedure m
  else
    send_commands m
      (w_cmd inp.speed_cmd_filtered inp.tan_half_beta m.cj_rate m.crawling_mode_cmd)

/-- A connected, engaged node whose last command is stamped 0.9 s and whose
last telemetry decode is stamped 0 s; the command in force asks for position
steering 1/2 and torque 1/4. -/
def engaged_node : Node :=
  { engaged_cmd := true, speed_cmd := 105, steer_cmd := 1 / 2, torque_cmd := 1 / 4,
    rate_mode_cmd := false, crawling_mode_cmd := false,
    last_update_nav_ctrl := 900000000,
    cj_angle := 0, cj_rate := 0, sea_angle := 0, sea_torque := 0,
    nav_ctrl_connected := true, last_update_from_mc := 0, sent := [], exit_code := none }

/-- An iteration at 1 s: a publisher is present, no message and no telemetry
arrive, the filtered speed is 105 mm/s, the articulation angle is 0. -/
def starved_input : LoopInput :=
  { msgs := [], speed_cmd_filtered := 105, num_publishers := 1, now_nav := 1000000000,
    telemetry := [], now_mc := 1000000000, tan_half_beta := 0 }

theorem send_cmd1_bytes (cmd val : Nat) :
    send_cmd1 cmd val =
      [cmd, val % 256, val / 256 % 256, val / 65536 % 256, val / 16777216 % 256,
        cmd ^^^ (val % 256) ^^^ (val / 256 % 256) ^^^ (val / 65536 % 256)
          ^^^ (val / 16777216 % 256)] := by
  simp [send_cmd1, fill_buffer, store, raw_float_bytes, List.range_succ]

theorem send_cmd2_bytes (cmd val1 val2 : Nat) :
    send_cmd2 cmd val1 val2 =
      [cmd, val1 % 256, val1 / 256 % 256, val1 / 65536 % 256, val1 / 16777216 % 256,
        val2 % 256, val2 / 256 % 256, val2 / 65536 % 256, val2 / 16777216 % 256,
        cmd ^^^ (val1 % 256) ^^^ (val1 / 256 % 256) ^^^ (val1 / 65536 % 256)
          ^^^ (val1 / 16777216 % 256) ^^^ (val2 % 256) ^^^ (val2 / 256 % 256)
          ^^^ (val2 / 65536 % 256) ^^^ (val2 / 16777216 % 256)] := by
  simp [send_cmd2, fill_buffer, store, raw_floats_bytes, raw_float_bytes, List.range_succ]

theorem send_cmd2_checked (cmd val1 val2 : Nat) :
    (send_cmd2 cmd val1 val2).length = 10 ∧ xor_all (send_cmd2 cmd val1 val2) = 0 := by
  rw [send_cmd2_bytes]
  simp [xor_all, Nat.xor_self]

/-- C1. Checksum invariant: for every command byte and every payload, the
frame built by `send_cmd1` has six bytes, the frame built by `send_cmd2` has
ten bytes, and the XOR of all the bytes of either frame is 0. -/
theorem checksum_invariant (cmd val val1 val2 : Nat) :
    (send_cmd1 cmd val).length = 6 ∧ xor_all (send_cmd1 cmd val) = 0 ∧
    (send_cmd2 cmd val1 val2).length = 10 ∧ xor_all (send_cmd2 cmd val1 val2) = 0 := by
  rw [send_cmd1_bytes, send_cmd2_bytes]
  simp [xor_all, Nat.xor_self]

/-! ### The backlog loop -/

theorem sys_read_negative (count : Int) (pending : List Nat) (h : count < 0) :
    sys_read count pending = some (-1, [], pending) := by
  unfold sys_read
  rw [if_pos h]

theorem sys_read_positive (count : Nat) (pending : List Nat) (hc : 0 < count)
    (hp : count ≤ pending.length) :
    sys_read count pending = some ((count : Int), pending.take count, pending.drop count) := by
  unfold sys_read
  have hne : pending ≠ [] := by
    intro h
    rw [h] at hp
    simp at hp
    omega
  rw [if_neg (by omega), if_neg (by omega), if_neg hne]
  simp only [Int.toNat_ofNat, List.length_take]
  rw [Nat.min_eq_left hp]

/-- With at most twenty bytes announced, every `read` of the backlog loop is
refused and `available` climbs to twenty; nothing is consumed. -/
theorem discard_loop_short (n : Nat) (pending : List Nat) :
    discard_loop (20 - (n : Int)) pending = some (20, pending) := by
  have h20 : ((FRAME_LENGTH * N_LAST_FRAMES : Nat) : Int) = 20 := rfl
  induction n with
  | zero =>
    rw [discard_loop]
    simp [FRAME_LENGTH, N_LAST_FRAMES]
  | succ n ih =>
    rw [discard_loop]
    have h1 : ¬ ((20 : Int) - ((n + 1 : Nat) : Int)
        - ((FRAME_LENGTH * N_LAST_FRAMES : Nat) : Int) = 0) := by
      rw [h20]
      omega
    rw [if_neg h1]
    have h2 := sys_read_negative (min 1024 ((20 : Int) - ((n + 1 : Nat) : Int)
        - ((FRAME_LENGTH * N_LAST_FRAMES : Nat) : Int))) pending
      (by rw [h20]; omega)
    split
    · rename_i heq
      rw [h2] at heq
      exact absurd heq (by simp)
    · rename_i rd got rest heq
      rw [h2] at heq
      simp only [Option.some.injEq, Prod.mk.injEq] at heq
      obtain ⟨hrd, -, hrest⟩ := heq
      subst hrd hrest
      have h3 : (20 : Int) - ((n + 1 : Nat) : Int) - -1 = 20 - (n : Int) := by omega
      rw [h3]
      exact ih

/-- With more than twenty bytes queued, the backlog loop drops all but the
last twenty. -/
theorem discard_loop_long (n : Nat) : ∀ (pending : List Nat), pending.length = 20 + n →
    discard_loop (pending.length : Int) pending = some (20, pending.drop n) := by
  have h20 : ((FRAME_LENGTH * N_LAST_FRAMES : Nat) : Int) = 20 := rfl
  induction n using Nat.strong_induction_on with
  | _ n ih =>
    intro pending hlen
    rw [discard_loop]
    by_cases hn : n = 0
    · subst hn
      rw [if_pos (by rw [h20]; omega)]
      simp [hlen]
    · rw [if_neg (by rw [h20]; omega)]
      have hmin : min (1024 : Int)
          ((pending.length : Int) - ((FRAME_LENGTH * N_LAST_FRAMES : Nat) : Int))
          = ((min 1024 n : Nat) : Int) := by
        rw [h20]
        omega
      have h2 := sys_read_positive (min 1024 n) pending (by omega) (by omega)
      rw [← hmin] at h2
      split
      · rename_i heq
        rw [h2] at heq
        exact absurd heq (by simp)
      · rename_i rd got rest heq
        rw [h2] at heq
        simp only [Option.some.injEq, Prod.mk.injEq] at heq
        obtain ⟨hrd, -, hrest⟩ := heq
        subst hrd hrest
        have hl : (pending.drop (min 1024 n)).length = 20 + (n - min 1024 n) := by
          rw [List.length_drop]
          omega
        have h3 : (pending.length : Int) - min (1024 : Int)
            ((pending.length : Int) - ((FRAME_LENGTH * N_LAST_FRAMES : Nat) : Int))
            = ((pending.drop (min 1024 n)).length : Int) := by
          rw [hl, hmin]
          omega
        rw [h3, ih (n - min 1024 n) (by omega) _ hl, List.drop_drop]
        congr 3
        omega

/-- The backlog loop always terminates with `available = 20`, having dropped
whatever exceeds twenty queued bytes. -/
theorem discard_loop_spec (pending : List Nat) :
    discard_loop (pending.length : Int) pending = some (20, pending.drop (pending.length - 20)) := by
  by_cases h : pending.length ≤ 20
  · have h1 := discard_loop_short (20 - pending.length) pending
    have h2 : (20 : Int) - ((20 - pending.length : Nat) : Int) = (pending.length : Int) := by omega
    rw [h2] at h1
    rw [h1]
    have h3 : pending.length - 20 = 0 := by omega
    rw [h3, List.drop_zero]
  · exact discard_loop_long (pending.length - 20) pending (by omega)

/-! ### The parsing loop refines the sliding-window decoder -/

theorem holds_store {rd_buf : Nat → Nat} {buf_pos a0 a1 a2 a3 a4 a5 a6 a7 a8 : Nat}
    (h : holds rd_buf buf_pos [a0, a1, a2, a3, a4, a5, a6, a7, a8]) (b : Nat) :
    holds (store rd_buf ((buf_pos + FRAME_LENGTH - 1) % FRAME_LENGTH) b) buf_pos
      [a0, a1, a2, a3, a4, a5, a6, a7, a8, b] := by
  intro i hi
  simp only [List.length_cons, List.length_nil] at hi
  by_cases h9 : i = 9
  · subst h9
    simp [store, FRAME_LENGTH]
  · have hlt : i < 9 := by omega
    have hne : ¬ ((buf_pos + i) % FRAME_LENGTH = (buf_pos + FRAME_LENGTH - 1) % FRAME_LENGTH) := by
      simp only [FRAME_LENGTH]
      omega
    have hold := h i (by simpa using hlt)
    simp only [store, if_neg hne, hold]
    interval_cases i <;> rfl

theorem holds_advance {rd_buf : Nat → Nat} {buf_pos a0 a1 a2 a3 a4 a5 a6 a7 a8 b : Nat}
    (h : holds rd_buf buf_pos [a0, a1, a2, a3, a4, a5, a6, a7, a8, b]) :
    holds rd_buf (buf_pos + 1) [a1, a2, a3, a4, a5, a6, a7, a8, b] := by
  intro i hi
  simp only [List.length_cons, List.length_nil] at hi
  have hold := h (i + 1) (by simp only [List.length_cons, List.length_nil]; omega)
  have hidx : buf_pos + 1 + i = buf_pos + (i + 1) := by omega
  rw [hidx, hold]
  rfl

theorem holds_at {rd_buf : Nat → Nat} {buf_pos : Nat} {w : List Nat}
    (h : holds rd_buf buf_pos w) (i : Nat) (hi : i < w.length) (m : Nat) (hm : m = buf_pos + i) :
    rd_buf (m % FRAME_LENGTH) = w.getD i 0 := by
  subst hm
  exact h i hi

theorem checksum_of_holds {rd_buf : Nat → Nat} {buf_pos a0 a1 a2 a3 a4 a5 a6 a7 a8 a9 : Nat}
    (h : holds rd_buf buf_pos [a0, a1, a2, a3, a4, a5, a6, a7, a8, a9]) :
    checksum rd_buf buf_pos = xor_all [a0, a1, a2, a3, a4, a5, a6, a7, a8, a9] := by
  have hr : List.range FRAME_LENGTH = [0, 1, 2, 3, 4, 5, 6, 7, 8, 9] := by decide
  unfold checksum xor_all
  rw [hr]
  simp only [List.foldl_cons, List.foldl_nil]
  rw [holds_at h 0 (by simp) (buf_pos + 0) rfl, holds_at h 1 (by simp) (buf_pos + 1) rfl,
    holds_at h 2 (by simp) (buf_pos + 2) rfl, holds_at h 3 (by simp) (buf_pos + 3) rfl,
    holds_at h 4 (by simp) (buf_pos + 4) rfl, holds_at h 5 (by simp) (buf_pos + 5) rfl,
    holds_at h 6 (by simp) (buf_pos + 6) rfl, holds_at h 7 (by simp) (buf_pos + 7) rfl,
    holds_at h 8 (by simp) (buf_pos + 8) rfl, holds_at h 9 (by simp) (buf_pos + 9) rfl]
  rfl

theorem resync_step (joints : Joints) (a0 a1 a2 a3 a4 a5 a6 a7 a8 b advances : Nat)
    (rest : List Nat) :
    resync ([a0, a1, a2, a3, a4, a5, a6, a7, a8] ++ b :: rest) advances joints
      = if accepted [a0, a1, a2, a3, a4, a5, a6, a7, a8, b] then
          ⟨frame_kind [a0, a1, a2, a3, a4, a5, a6, a7, a8, b],
            store_frame [a0, a1, a2, a3, a4, a5, a6, a7, a8, b] joints, rest, advances⟩
        else resync ([a1, a2, a3, a4, a5, a6, a7, a8, b] ++ rest) (advances + 1) joints := by
  simp [resync, FRAME_LENGTH]

theorem window_loop_refines (joints : Joints) : ∀ (pending : List Nat)
    (a0 a1 a2 a3 a4 a5 a6 a7 a8 : Nat) (rd_buf : Nat → Nat) (buf_pos : Nat),
    holds rd_buf buf_pos [a0, a1, a2, a3, a4, a5, a6, a7, a8] →
    window_loop pending rd_buf buf_pos joints
      = resync ([a0, a1, a2, a3, a4, a5, a6, a7, a8] ++ pending) buf_pos joints := by
  intro pending
  induction pending with
  | nil =>
    intro a0 a1 a2 a3 a4 a5 a6 a7 a8 rd_buf buf_pos _
    simp [window_loop, resync, FRAME_LENGTH]
  | cons b rest ih =>
    intro a0 a1 a2 a3 a4 a5 a6 a7 a8 rd_buf buf_pos h
    have hs := holds_store h b
    have hnext := ih a1 a2 a3 a4 a5 a6 a7 a8 b _ _ (holds_advance hs)
    have hcs := checksum_of_holds hs
    have e0 := holds_at hs 0 (by simp) buf_pos rfl
    have d0 := holds_at hs 1 (by simp) (buf_pos + 1 + 0) rfl
    have d1 := holds_at hs 2 (by simp) (buf_pos + 1 + 1) rfl
    have d2 := holds_at hs 3 (by simp) (buf_pos + 1 + 2) rfl
    have d3 := holds_at hs 4 (by simp) (buf_pos + 1 + 3) rfl
    have d4 := holds_at hs 5 (by simp) (buf_pos + 1 + 4) rfl
    have d5 := holds_at hs 6 (by simp) (buf_pos + 1 + 5) rfl
    have d6 := holds_at hs 7 (by simp) (buf_pos + 1 + 6) rfl
    have d7 := holds_at hs 8 (by simp) (buf_pos + 1 + 7) rfl
    simp only [window_loop]
    rw [resync_step, e0, d0, d1, d2, d3, d4, d5, d6, d7, hcs, hnext]
    simp only [accepted, frame_kind, store_frame, List.headD_cons, List.getD_cons_zero,
      List.getD_cons_succ]
    by_cases hA : a0 = HDR_CJ_ANGLE_RATE
    · by_cases hX : xor_all [a0, a1, a2, a3, a4, a5, a6, a7, a8, b] = 0
      · simp [hA, hX]
      · simp [hA, hX]
    · by_cases hB : a0 = HDR_SEA_ANGLE_TOR
      · subst hB
        by_cases hX : xor_all [HDR_SEA_ANGLE_TOR, a1, a2, a3, a4, a5, a6, a7, a8, b] = 0
        · simp [hA, hX]
        · simp [hA, hX]
      · simp [hA, hB]

theorem split_nine (t : List Nat) (h : 9 ≤ t.length) :
    ∃ a0 a1 a2 a3 a4 a5 a6 a7 a8 rest, t = [a0, a1, a2, a3, a4, a5, a6, a7, a8] ++ rest := by
  rcases t with _ | ⟨a0, _ | ⟨a1, _ | ⟨a2, _ | ⟨a3, _ | ⟨a4, _ | ⟨a5, _ | ⟨a6, _ | ⟨a7,
    _ | ⟨a8, rest⟩⟩⟩⟩⟩⟩⟩⟩⟩
  case cons.cons.cons.cons.cons.cons.cons.cons.cons =>
    exact ⟨a0, a1, a2, a3, a4, a5, a6, a7, a8, rest, rfl⟩
  all_goals
    simp only [List.length_cons, List.length_nil] at h
    omega

/-- Refinement: whenever at least ten bytes are queued, `read_from_mc` returns,
and what it returns is what the sliding-window decoder yields on the last
twenty queued bytes (on all of them when at most twenty are queued). -/
theorem read_from_mc_refines (pending : List Nat) (stack : Nat → Nat) (joints : Joints)
    (h : FRAME_LENGTH ≤ pending.length) :
    read_from_mc pending stack joints
      = some (resync (pending.drop (pending.length - 20)) 0 joints) := by
  simp only [FRAME_LENGTH] at h
  have hlen : 9 ≤ (pending.drop (pending.length - 20)).length := by
    rw [List.length_drop]
    omega
  obtain ⟨a0, a1, a2, a3, a4, a5, a6, a7, a8, rest, ht⟩ := split_nine _ hlen
  have hrd := sys_read_positive 9 (pending.drop (pending.length - 20)) (by omega) hlen
  have h9 : ((FRAME_LENGTH - 1 : Nat) : Int) = ((9 : Nat) : Int) := rfl
  unfold read_from_mc
  simp only [FRAME_LENGTH]
  rw [if_neg (by omega), discard_loop_spec]
  simp only []
  rw [show ((10 - 1 : Nat) : Int) = ((9 : Nat) : Int) from rfl, hrd]
  simp only [ht]
  have hholds : holds (fun i => if i < 9 then [a0, a1, a2, a3, a4, a5, a6, a7, a8].getD i 0
      else stack i) 0 [a0, a1, a2, a3, a4, a5, a6, a7, a8] := by
    intro i hi
    simp only [List.length_cons, List.length_nil] at hi
    have hi9 : i < 9 := by omega
    have hm : (0 + i) % FRAME_LENGTH = i := by
      simp only [FRAME_LENGTH]
      omega
    simp only [hm, if_pos hi9]
  have := window_loop_refines joints rest a0 a1 a2 a3 a4 a5 a6 a7 a8 _ 0 hholds
  simpa using this

theorem resync_garbage (joints : Joints) (frame : List Nat) (hlen : frame.length = FRAME_LENGTH)
    (hacc : accepted frame) : ∀ (garbage : List Nat) (advances : Nat),
    (∀ m, m < garbage.length → ¬ accepted (window (garbage ++ frame) m)) →
    resync (garbage ++ frame) advances joints
      = ⟨frame_kind frame, store_frame frame joints, [], advances + garbage.length⟩ := by
  intro garbage
  induction garbage with
  | nil =>
    intro advances _
    rcases frame with _ | ⟨b, rest⟩
    · simp [FRAME_LENGTH] at hlen
    · have htake : (b :: rest).take FRAME_LENGTH = b :: rest := by
        rw [← hlen, List.take_length]
      have hdrop : (b :: rest).drop FRAME_LENGTH = [] := by
        rw [← hlen, List.drop_length]
      simp only [List.nil_append, resync, htake, hdrop, if_pos hacc, List.length_nil,
        Nat.add_zero]
      rw [if_neg (by omega)]
  | cons g gs ih =>
    intro advances hg
    have h0 := hg 0 (by simp)
    simp only [window, List.drop_zero] at h0
    have hrest : ∀ m, m < gs.length → ¬ accepted (window (gs ++ frame) m) := by
      intro m hm
      have := hg (m + 1) (by simpa using hm)
      simpa [window] using this
    have hl : ¬ (g :: (gs ++ frame)).length < FRAME_LENGTH := by
      simp only [List.length_cons, List.length_append, hlen]
      omega
    simp only [List.cons_append] at h0 ⊢
    rw [resync, if_neg hl, if_neg h0, ih (advances + 1) hrest]
    simp only [List.length_cons, McResult.mk.injEq, true_and]
    omega

/-- C2. Resynchronisation: when one accepted ten-byte frame is queued behind
k garbage bytes, 1 ≤ k ≤ 9, and no ten-byte window starting at an offset
below k is itself accepted, one call of `read_from_mc` returns the kind of
that frame (1 for header 0xCA, 2 for header 0x5A), stores its two payload
values, leaves nothing queued, and has advanced the window one byte at a time
exactly k times, which is at most FRAME_LENGTH. -/
theorem resync_property (garbage frame : List Nat) (stack : Nat → Nat) (joints : Joints)
    (hk1 : 1 ≤ garbage.length) (hk9 : garbage.length ≤ 9)
    (hlen : frame.length = FRAME_LENGTH) (hvalid : accepted frame)
    (hgarbage : ∀ m, m < garbage.length → ¬ accepted (window (garbage ++ frame) m)) :
    read_from_mc (garbage ++ frame) stack joints
      = some ⟨frame_kind frame, store_frame frame joints, [], garbage.length⟩ ∧
    garbage.length ≤ FRAME_LENGTH := by
  have hl : (garbage ++ frame).length = garbage.length + 10 := by
    rw [List.length_append, hlen]
    rfl
  constructor
  · rw [read_from_mc_refines _ _ _ (by rw [hl]; simp only [FRAME_LENGTH]; omega)]
    have hz : (garbage ++ frame).length - 20 = 0 := by omega
    rw [hz, List.drop_zero, resync_garbage joints frame hlen hvalid garbage 0 hgarbage,
      Nat.zero_add]
  · simp only [FRAME_LENGTH]
    omega

/-- An instance of the resynchronisation theorem: three garbage bytes, both
header values among them, ahead of the frame that carries 10.0 and 0.0. -/
theorem resync_property_witness :
    read_from_mc ([0x5A, 0xCA, 0x00] ++ [0xCA, 0x00, 0x00, 0x20, 0x41, 0x00, 0x00, 0x00, 0x00, 0xAB])
        (fun _ => 0) ⟨0, 0, 0, 0⟩
      = some ⟨frame_kind [0xCA, 0x00, 0x00, 0x20, 0x41, 0x00, 0x00, 0x00, 0x00, 0xAB],
          store_frame [0xCA, 0x00, 0x00, 0x20, 0x41, 0x00, 0x00, 0x00, 0x00, 0xAB] ⟨0, 0, 0, 0⟩,
          [], [0x5A, 0xCA, 0x00].length⟩ ∧
    [0x5A, 0xCA, 0x00].length ≤ FRAME_LENGTH :=
  resync_property [0x5A, 0xCA, 0x00] [0xCA, 0x00, 0x00, 0x20, 0x41, 0x00, 0x00, 0x00, 0x00, 0xAB]
    (fun _ => 0) ⟨0, 0, 0, 0⟩ (by decide) (by decide) (by decide) (by decide) (by decide)

theorem float_of_raw_bytes (v : Nat) (hv : v < 2 ^ 32) :
    float_of_bytes (v % 256) (v / 256 % 256) (v / 65536 % 256) (v / 16777216 % 256) = v := by
  unfold float_of_bytes
  have h32 : (2 : Nat) ^ 32 = 4294967296 := by norm_num
  rw [h32] at hv
  omega

theorem read_aligned_frame (frame : List Nat) (stack : Nat → Nat) (joints : Joints)
    (hlen : frame.length = FRAME_LENGTH) (hvalid : accepted frame) :
    read_from_mc frame stack joints
      = some ⟨frame_kind frame, store_frame frame joints, [], 0⟩ := by
  rw [read_from_mc_refines _ _ _ (by rw [hlen])]
  have hz : frame.length - 20 = 0 := by
    rw [hlen]
    rfl
  have := resync_garbage joints frame hlen hvalid [] 0 (by simp)
  rw [hz, List.drop_zero]
  simpa using this

/-- C3. Decode undoes encode: for all 32-bit payload values a and b, the ten
bytes built by `send_cmd2` with header 0xCA, queued byte-aligned, make
`read_from_mc` return 1 with `cj_angle = a` and `cj_rate = b` bit for bit;
with header 0x5A it returns 2 with `sea_angle = a` and `sea_torque = b`. -/
theorem decode_undoes_encode (a b : Nat) (stack : Nat → Nat) (joints : Joints)
    (ha : a < 2 ^ 32) (hb : b < 2 ^ 32) :
    read_from_mc (send_cmd2 HDR_CJ_ANGLE_RATE a b) stack joints
      = some ⟨1, { joints with cj_angle := a, cj_rate := b }, [], 0⟩ ∧
    read_from_mc (send_cmd2 HDR_SEA_ANGLE_TOR a b) stack joints
      = some ⟨2, { joints with sea_angle := a, sea_torque := b }, [], 0⟩ := by
  have hA := float_of_raw_bytes a ha
  have hB := float_of_raw_bytes b hb
  constructor
  · have hx := send_cmd2_checked HDR_CJ_ANGLE_RATE a b
    have hacc : accepted (send_cmd2 HDR_CJ_ANGLE_RATE a b) := by
      refine ⟨Or.inl ?_, hx.2⟩
      rw [send_cmd2_bytes]
      rfl
    rw [read_aligned_frame _ stack joints hx.1 hacc, send_cmd2_bytes]
    simp [frame_kind, store_frame, hA, hB]
  · have hx := send_cmd2_checked HDR_SEA_ANGLE_TOR a b
    have hacc : accepted (send_cmd2 HDR_SEA_ANGLE_TOR a b) := by
      refine ⟨Or.inr ?_, hx.2⟩
      rw [send_cmd2_bytes]
      rfl
    rw [read_aligned_frame _ stack joints hx.1 hacc, send_cmd2_bytes]
    have hne : ¬ HDR_SEA_ANGLE_TOR = HDR_CJ_ANGLE_RATE := by decide
    simp [frame_kind, store_frame, hA, hB, hne]

/-- An instance of the round trip: the values 10.0 (bit pattern 0x41200000)
and 0.0, under either header. -/
theorem decode_undoes_encode_witness :
    read_from_mc (send_cmd2 HDR_CJ_ANGLE_RATE 0x41200000 0) (fun _ => 0) ⟨7, 7, 7, 7⟩
      = some ⟨1, ⟨0x41200000, 0, 7, 7⟩, [], 0⟩ ∧
    read_from_mc (send_cmd2 HDR_SEA_ANGLE_TOR 0x41200000 0) (fun _ => 0) ⟨7, 7, 7, 7⟩
      = some ⟨2, ⟨7, 7, 0x41200000, 0⟩, [], 0⟩ :=
  decode_undoes_encode 0x41200000 0 (fun _ => 0) ⟨7, 7, 7, 7⟩ (by norm_num) (by norm_num)

/-! ## Theorems: wheel speed synchronisation -/

theorem min_speed_off (s t r : ℚ) : min_speed s t r false = 0 := by
  simp [min_speed]

theorem final_speed_forward (s t r : ℚ) (c : Bool) (h : s ≥ -(1 / 100)) :
    final_speed s t r c
      = min (min (min (min (max s (min_speed s t r c))
          ((WSPEED_MAX * WRADIUS - trans t r 0) * _1diff t 0))
          ((WSPEED_MAX * WRADIUS - trans t r 1) * _1diff t 1))
          ((WSPEED_MAX * WRADIUS - trans t r 2) * _1diff t 2))
          ((WSPEED_MAX * WRADIUS - trans t r 3) * _1diff t 3) := by
  simp only [final_speed, List.foldl_cons, List.foldl_nil, if_pos h]

theorem final_speed_reverse (s t r : ℚ) (c : Bool) (h : ¬ s ≥ -(1 / 100)) :
    final_speed s t r c
      = max (max (max (max (min s (min_speed s t r c))
          ((-WSPEED_MAX * WRADIUS - trans t r 0) * _1diff t 0))
          ((-WSPEED_MAX * WRADIUS - trans t r 1) * _1diff t 1))
          ((-WSPEED_MAX * WRADIUS - trans t r 2) * _1diff t 2))
          ((-WSPEED_MAX * WRADIUS - trans t r 3) * _1diff t 3) := by
  simp only [final_speed, List.foldl_cons, List.foldl_nil, if_neg h]

/-- With articulation angle 0 and articulation rate 0 and crawling mode off,
the robot speed is the requested speed floored at 0 (forward rule) and
clamped at the wheel speed limit. -/
theorem final_speed_straight (s : ℚ) :
    final_speed s 0 0 false
      = if s ≥ -(1 / 100) then min (max s 0) (WSPEED_MAX * WRADIUS)
        else max s (-(WSPEED_MAX * WRADIUS)) := by
  by_cases h : s ≥ -(1 / 100)
  · rw [final_speed_forward s 0 0 false h, min_speed_off, if_pos h]
    simp [trans, diff, _1diff]
  · rw [final_speed_reverse s 0 0 false h, min_speed_off, if_neg h]
    have hs : s ≤ 0 := by linarith [not_le.mp h]
    simp [trans, diff, _1diff, min_eq_left hs]

theorem w_cmd_straight (s : ℚ) (i : Nat) :
    w_cmd s 0 0 false i = final_speed s 0 0 false / WRADIUS := by
  simp [w_cmd, trans, diff, _wradius, div_eq_mul_inv]

/-- C9. Idempotence of Disengage-All: from any state whatever (engagement
flag, connection flag, calls already made), `disengage_all` appends the same
five calls, passive brake to the front and to the back wheel controller,
zero velocity to the front and to the back, then the disengage code to the
steering controller, and changes nothing else; called twice, it appends that
sequence twice. -/
theorem disengage_all_fixed_sequence (n : Node) :
    (disengage_all n).sent = n.sent ++
      [Call.send_cmd2 Fd.wmc_F_fd 0xAE 0 0, Call.send_cmd2 Fd.wmc_B_fd 0xAE 0 0,
       Call.send_cmd2 Fd.wmc_F_fd 0xAA 0 0, Call.send_cmd2 Fd.wmc_B_fd 0xAA 0 0,
       Call.send_cmd1 Fd.mc_fd 0x00 0] ∧
    (disengage_all (disengage_all n)).sent = n.sent ++
      [Call.send_cmd2 Fd.wmc_F_fd 0xAE 0 0, Call.send_cmd2 Fd.wmc_B_fd 0xAE 0 0,
       Call.send_cmd2 Fd.wmc_F_fd 0xAA 0 0, Call.send_cmd2 Fd.wmc_B_fd 0xAA 0 0,
       Call.send_cmd1 Fd.mc_fd 0x00 0] ++
      [Call.send_cmd2 Fd.wmc_F_fd 0xAE 0 0, Call.send_cmd2 Fd.wmc_B_fd 0xAE 0 0,
       Call.send_cmd2 Fd.wmc_F_fd 0xAA 0 0, Call.send_cmd2 Fd.wmc_B_fd 0xAA 0 0,
       Call.send_cmd1 Fd.mc_fd 0x00 0] ∧
    disengage_all n = { n with sent := (disengage_all n).sent } := by
  refine ⟨rfl, ?_, rfl⟩
  simp [disengage_all, disengage_all_calls, PASSIVE_BREAK, CMD_VEL, CMD_DISENGAGE]

/-- C10 (as the code behaves). Fatal watchdog trip: in an iteration where the
time since the last successful telemetry decode has reached MC_TIMEOUT, the
loop makes the calls of `disengage_all` and the process exits, with status 0. -/
theorem fatal_trip_exits_with_zero (n : Node) (inp : LoopInput)
    (h : inp.now_mc - (after_drain n inp).last_update_from_mc ≥ MC_TIMEOUT) :
    (loop_iteration n inp).sent = (after_drain n inp).sent ++ disengage_all_calls ∧
    (loop_iteration n inp).exit_code = some 0 := by
  have ht : mc_timed_out n inp = true := by
    simp only [mc_timed_out, decide_eq_true_eq]
    exact h
  simp only [loop_iteration, ht, if_true]
  exact ⟨rfl, rfl⟩

/-- The telemetry drain touches the telemetry values and
`last_update_from_mc` only. -/
theorem drain_mc_frame (tel : List McUpdate) : ∀ (n : Node),
    (drain_mc n tel).sent = n.sent ∧
    (drain_mc n tel).exit_code = n.exit_code ∧
    (drain_mc n tel).engaged_cmd = n.engaged_cmd ∧
    (drain_mc n tel).nav_ctrl_connected = n.nav_ctrl_connected ∧
    (drain_mc n tel).last_update_nav_ctrl = n.last_update_nav_ctrl ∧
    (drain_mc n tel).rate_mode_cmd = n.rate_mode_cmd ∧
    (drain_mc n tel).steer_cmd = n.steer_cmd ∧
    (drain_mc n tel).torque_cmd = n.torque_cmd ∧
    (drain_mc n tel).crawling_mode_cmd = n.crawling_mode_cmd := by
  induction tel with
  | nil =>
    intro n
    simp [drain_mc]
  | cons u rest ih =>
    intro n
    by_cases hu : u.ret = 1
    · have h := ih { n with cj_angle := u.floats0, cj_rate := u.floats1,
                            last_update_from_mc := u.now }
      simpa [drain_mc, hu] using h
    · have h := ih { n with sea_angle := u.floats0, sea_torque := u.floats1,
                            last_update_from_mc := u.now }
      simpa [drain_mc, hu] using h

theorem send_commands_off (m : Node) (w : Nat → ℚ)
    (h : (m.engaged_cmd && m.nav_ctrl_connected) = false) : send_commands m w = m := by
  simp [send_commands, h]

theorem send_commands_on (m : Node) (w : Nat → ℚ)
    (h : (m.engaged_cmd && m.nav_ctrl_connected) = true) :
    send_commands m w = { m with sent := m.sent ++ drive_calls m w } := by
  simp [send_commands, h]

/-- An instance of the fatal trip: last decode at 0 s, iteration at 1 s
without telemetry. -/
theorem fatal_trip_exits_with_zero_witness :
    (loop_iteration engaged_node starved_input).sent
      = (after_drain engaged_node starved_input).sent ++ disengage_all_calls ∧
    (loop_iteration engaged_node starved_input).exit_code = some 0 :=
  fatal_trip_exits_with_zero engaged_node starved_input (by decide)

/-- The callbacks run by `ros::spinOnce()` only ever make the calls of
`disengage_all` and of `engage`. -/
theorem spinOnce_sent (msgs : List Rov_ctrl) : ∀ (n : Node),
    ∃ safety, (spinOnce n msgs).sent = n.sent ++ safety ∧
      ∀ c ∈ safety, c ∈ disengage_all_calls ∨ c ∈ engage_calls := by
  induction msgs with
  | nil =>
    intro n
    exact ⟨[], by simp [spinOnce], by simp⟩
  | cons msg rest ih =>
    intro n
    obtain ⟨tail, h1, h2⟩ := ih (cmd_rcv_Callback n msg)
    have hstep : spinOnce n (msg :: rest) = spinOnce (cmd_rcv_Callback n msg) rest := rfl
    rw [hstep, h1]
    cases hme : msg.engaged <;> cases hne : n.engaged_cmd
    · refine ⟨tail, ?_, h2⟩
      simp [cmd_rcv_Callback, hme, hne]
    · refine ⟨disengage_all_calls ++ tail, ?_, ?_⟩
      · simp [cmd_rcv_Callback, hme, hne, disengage_all]
      · intro c hc
        rcases List.mem_append.mp hc with hc | hc
        · exact Or.inl hc
        · exact h2 c hc
    · refine ⟨engage_calls ++ tail, ?_, ?_⟩
      · simp [cmd_rcv_Callback, hme, hne, engage]
      · intro c hc
        rcases List.mem_append.mp hc with hc | hc
        · exact Or.inr hc
        · exact h2 c hc
    · refine ⟨tail, ?_, h2⟩
      simp [cmd_rcv_Callback, hme, hne]

theorem nav_watchdog_sent (n : Node) (num_publishers : Nat) (now : Int) :
    (∃ safety, (nav_watchdog n num_publishers now).sent = n.sent ++ safety ∧
      ∀ c ∈ safety, c ∈ disengage_all_calls ∨ c ∈ engage_calls) ∧
    (disconnection n num_publishers now = true →
      (nav_watchdog n num_publishers now).nav_ctrl_connected = false) := by
  unfold nav_watchdog
  cases hc : n.nav_ctrl_connected <;> cases hd : disconnection n num_publishers now <;>
    cases he : n.engaged_cmd <;>
    simp [hc, disengage_all, engage]
  all_goals
    intro c hc
    simp [hc]

/-- C8 (amended). In every iteration of the loop, the calls made before the
block "Send the commands" are calls of `disengage_all` and `engage` only, and
the wheel velocity, steering and torque commands of that block are the
calls that follow them exactly when the telemetry watchdog has not tripped
and, after the command watchdog, `engaged_cmd` and `nav_ctrl_connected` are
both true; when the telemetry watchdog trips, the calls of `disengage_all`
follow instead, and otherwise nothing follows. In an iteration where the
command source has no publisher or has been silent for NAV_CTRL_TIMEOUT or
longer, the state after the command watchdog is disconnected, so none of
those commands is sent. -/
theorem drive_iff_connected_engaged (n : Node) (inp : LoopInput) :
    (∃ safety, (after_watchdog n inp).sent = n.sent ++ safety ∧
      ∀ c ∈ safety, c ∈ disengage_all_calls ∨ c ∈ engage_calls) ∧
    (loop_iteration n inp).sent = (after_watchdog n inp).sent ++
      (if mc_timed_out n inp then disengage_all_calls
       else if (after_watchdog n inp).engaged_cmd && (after_watchdog n inp).nav_ctrl_connected
       then drive_calls (after_watchdog n inp)
         (w_cmd inp.speed_cmd_filtered inp.tan_half_beta (after_drain n inp).cj_rate
           (after_watchdog n inp).crawling_mode_cmd)
       else []) ∧
    (disconnection (spinOnce n inp.msgs) inp.num_publishers inp.now_nav = true →
      (after_watchdog n inp).nav_ctrl_connected = false) := by
  obtain ⟨s1, hs1, hs1m⟩ := spinOnce_sent inp.msgs n
  obtain ⟨⟨s2, hs2, hs2m⟩, hdis⟩ :=
    nav_watchdog_sent (spinOnce n inp.msgs) inp.num_publishers inp.now_nav
  obtain ⟨h1, -, h3, h4, -, h6, h7, h8, h9⟩ :=
    drain_mc_frame inp.telemetry (after_watchdog n inp)
  refine ⟨⟨s1 ++ s2, ?_, ?_⟩, ?_, hdis⟩
  · rw [after_watchdog, hs2, hs1, List.append_assoc]
  · intro c hc
    rcases List.mem_append.mp hc with hc | hc
    · exact hs1m c hc
    · exact hs2m c hc
  · unfold loop_iteration
    by_cases ht : mc_timed_out n inp = true
    · simp only [ht, if_true]
      show (after_drain n inp).sent ++ disengage_all_calls = _
      simp only [after_drain, h1]
    · simp only [ht, Bool.false_eq_true, if_false]
      by_cases hon : ((after_watchdog n inp).engaged_cmd
          && (after_watchdog n inp).nav_ctrl_connected) = true
      · have hon2 : ((after_drain n inp).engaged_cmd
            && (after_drain n inp).nav_ctrl_connected) = true := by
          simp only [after_drain, h3, h4]
          exact hon
        rw [send_commands_on _ _ hon2, if_pos hon]
        show (after_drain n inp).sent ++ _ = _
        simp only [after_drain, h1, h9, drive_calls, h6, h7, h8]
      · have hoff : ((after_drain n inp).engaged_cmd
            && (after_drain n inp).nav_ctrl_connected) = false := by
          simp only [after_drain, h3, h4]
          simpa using hon
        rw [send_commands_off _ _ hoff, if_neg hon]
        simp only [after_drain, h1, List.append_nil]

/-- C8 (as stated) fails where the telemetry watchdog trips: the node is
connected and engaged after the command watchdog, yet the iteration makes the
calls of `disengage_all` only; neither the wheel velocity commands computed
for that iteration (1 rad/s on every wheel) nor the steering and torque
commands are among its calls. -/
theorem drive_withheld_on_fatal_trip :
    (after_watchdog engaged_node starved_input).engaged_cmd = true ∧
    (after_watchdog engaged_node starved_input).nav_ctrl_connected = true ∧
    (loop_iteration engaged_node starved_input).sent = disengage_all_calls ∧
    drive_calls (after_drain engaged_node starved_input)
        (w_cmd starved_input.speed_cmd_filtered starved_input.tan_half_beta
          (after_drain engaged_node starved_input).cj_rate
          (after_drain engaged_node starved_input).crawling_mode_cmd)
      = [Call.send_cmd2 Fd.wmc_F_fd CMD_VEL 1 1, Call.send_cmd2 Fd.wmc_B_fd CMD_VEL 1 1,
         Call.send_cmd1 Fd.mc_fd CMD_MOTOR_1_POS (1 / 2),
         Call.send_cmd1 Fd.mc_fd CMD_MOTOR_2_TOR (1 / 4)] ∧
    (∀ c ∈ [Call.send_cmd2 Fd.wmc_F_fd CMD_VEL 1 1, Call.send_cmd2 Fd.wmc_B_fd CMD_VEL 1 1,
         Call.send_cmd1 Fd.mc_fd CMD_MOTOR_1_POS (1 / 2),
         Call.send_cmd1 Fd.mc_fd CMD_MOTOR_2_TOR (1 / 4)],
      c ∉ (loop_iteration engaged_node starved_input).sent) := by
  refine ⟨by decide, by decide, by decide, ?_, by decide⟩
  have hw : ∀ i, w_cmd 105 0 0 false i = 1 := by
    intro i
    rw [w_cmd_straight, final_speed_straight]
    norm_num [WSPEED_MAX, WRADIUS]
  have hd : after_drain engaged_node starved_input = engaged_node := rfl
  rw [hd]
  simp [drive_calls, engaged_node, starved_input, hw]


end NavNode
